import Mathlib

/-!
Shallow embedding of `src/vectori.h` (Yaazarai/vectori-c): a type-erased
resizable array over raw bytes with an internal byte cursor.

The C struct `vector` holds
  `int32_t typeSize` (element byte size),
  `size_t length`    (allocated capacity in BYTES),
  `size_t iterator`  (live length in BYTES),
  `void* data`       (buffer pointer, possibly NULL).

Modelling conventions:
* `size_t` values are `Nat`s; wherever C arithmetic can wrap we reduce
  modulo `2^64` explicitly (`mod64`, `sub64`).
* The buffer is `Option (List Nat)`: `none` is a NULL pointer, `some b`
  a block whose physical size is `b.length`.  `memcpy`/`memmove` writes
  are clipped at the physical end of the block (out-of-range writes are
  undefined behaviour in C and never observed by in-range reads).
* Reads of bytes that `realloc` freshly allocates are indeterminate in C;
  the model fills them with 0 (no theorem below inspects such bytes).
* The allocator is a capability that may fail; each call that allocates
  takes an explicit `allocOk : Bool` deciding whether the allocation call
  returns a block or NULL.
-/

/-- One past the largest value representable in a 64-bit `size_t`. -/
def SIZE_BOUND : Nat := 2 ^ 64

/-- `size_t` wraparound for addition/multiplication results. -/
def mod64 (n : Nat) : Nat := n % SIZE_BOUND

/-- `size_t` subtraction `a - b` with wraparound, for `a, b < SIZE_BOUND`. -/
def sub64 (a b : Nat) : Nat := (a + SIZE_BOUND - b % SIZE_BOUND) % SIZE_BOUND

/-- Embeds `#define VECTOR_MIN(X, Y) (((X) < (Y)) ? (X) : (Y))`. -/
def VECTOR_MIN (x y : Nat) : Nat := if x < y then x else y

/-- Embeds `#define VECTOR_MAX(X, Y) (((X) > (Y)) ? (X) : (Y))`. -/
def VECTOR_MAX (x y : Nat) : Nat := if x > y then x else y

/-- Embeds `#define VECTOR_DEFAULT_LENGTH 32`. -/
def VECTOR_DEFAULT_LENGTH : Nat := 32

/-- The C struct `vector`: element byte size, capacity bytes, live bytes,
and the buffer (`none` = NULL pointer). -/
structure vector where
  typeSize : Nat
  length : Nat
  iterator : Nat
  data : Option (List Nat)
  deriving DecidableEq

/-- Read `n` bytes of a block starting at byte offset `off` (reads past the
physical end yield nothing, as they are undefined in C). -/
def readBytes (buf : List Nat) (off n : Nat) : List Nat :=
  (buf.drop off).take n

/-- Write the bytes `src` into a block at byte offset `off`, clipped at the
physical end of the block; the physical size never changes. -/
def writeBytes (buf : List Nat) (off : Nat) (src : List Nat) : List Nat :=
  buf.take off ++ src.take (buf.length - off) ++ buf.drop (off + src.length)

/-- `memcpy`/`memmove` from an external source into a possibly-NULL block:
writing through NULL is undefined behaviour in C and leaves `none` here. -/
def bufWrite (d : Option (List Nat)) (off : Nat) (src : List Nat) : Option (List Nat) :=
  d.map fun b => writeBytes b off src

/-- Overlap-safe `memmove` of `n` bytes inside one possibly-NULL block,
from offset `src` to offset `dst` (as-if through a temporary buffer). -/
def bufMemmove (d : Option (List Nat)) (dst src n : Nat) : Option (List Nat) :=
  d.map fun b => writeBytes b dst (readBytes b src n)

/-- Embeds the C expression `&vector->data == NULL` used as the allocation
check in `vector_isalloc`, `vector_move`, `vector_clear`, `vector_insert`,
`vector_replace`, `vector_replace_unsafe` and `vector_get`: it takes the
ADDRESS of the `data` field of the (non-null) struct, which is never NULL,
so the comparison is constantly false. -/
def addr_of_data_eq_null (_v : vector) : Bool := false

/-- Embeds `vector_calloc(typeSize, reserve)`: default-capacity constructor;
`calloc` zero-fills and returns NULL on failure (`allocOk = false`). -/
def vector_calloc (allocOk : Bool) (typeSize : Nat) (reserve : Bool) : vector :=
  let len := (if reserve then 1 else 0) * VECTOR_DEFAULT_LENGTH
  { typeSize := typeSize
    length := mod64 (len * typeSize)
    iterator := 0
    data := if reserve then
        (if allocOk then some (List.replicate (len * typeSize) 0) else none)
      else none }

/-- Embeds `vector_calloc2(typeSize, length, reserve)`: caller-chosen
capacity constructor. -/
def vector_calloc2 (allocOk : Bool) (typeSize length : Nat) (reserve : Bool) : vector :=
  let len := (if reserve then 1 else 0) * length
  { typeSize := typeSize
    length := mod64 (len * typeSize)
    iterator := 0
    data := if reserve then
        (if allocOk then some (List.replicate (len * typeSize) 0) else none)
      else none }

/-- Embeds `vector_free`: NULL data fails; otherwise frees the block, sets
`data = NULL` and returns true.  The size fields are not touched. -/
def vector_free (v : vector) : Bool × vector :=
  if v.data.isNone then (false, v)
  else (true, { v with data := none })

/-- Embeds `vector_realloc(vector, length)`: `realloc(data, length*typeSize)`;
on success installs the block and sets `length` (capacity bytes) to
`length * typeSize`; on failure returns false leaving the struct untouched.
The `iterator` field is never modified.  A grown block keeps the old bytes
as prefix (fresh bytes modelled as 0); a shrunk block keeps the prefix. -/
def vector_realloc (allocOk : Bool) (v : vector) (length : Nat) : Bool × vector :=
  let newSize := mod64 (length * v.typeSize)
  if allocOk then
    (true, { v with
      data := some ((v.data.getD []).take newSize
        ++ List.replicate (newSize - (v.data.getD []).length) 0)
      length := newSize })
  else (false, v)

/-- Embeds `vector_isalloc`: `return &vector->data != NULL;`. -/
def vector_isalloc (v : vector) : Bool :=
  !(addr_of_data_eq_null v)

/-- Embeds `vector_bytesize`: the capacity byte count. -/
def vector_bytesize (v : vector) : Nat := v.length

/-- Embeds `vector_maxsize`: capacity in elements, `length / typeSize`. -/
def vector_maxsize (v : vector) : Nat := v.length / v.typeSize

/-- Embeds `vector_typesize`. -/
def vector_typesize (v : vector) : Nat := v.typeSize

/-- Embeds `vector_length`: also `length / typeSize` (capacity, not count). -/
def vector_length (v : vector) : Nat := v.length / v.typeSize

/-- Embeds `vector_count`: live element count, `iterator / typeSize`. -/
def vector_count (v : vector) : Nat := v.iterator / v.typeSize

/-- Embeds `vector_move(vector, iterator)`: bound-checks the byte position
`iterator * typeSize` against the capacity and installs it as the cursor. -/
def vector_move (v : vector) (iterator : Nat) : Bool × vector :=
  let bytePos := mod64 (iterator * v.typeSize)
  if addr_of_data_eq_null v || decide (bytePos < 0) || decide (bytePos > v.length)
  then (false, v)
  else (true, { v with iterator := bytePos })

/-- The `for(i = 0; i < length; i += typeSize) memcpy(data + i, fill, typeSize)`
loop of `vector_clear`.  The C loop never terminates when `typeSize = 0`; the
model stops in that degenerate case to stay total. -/
def clearLoop (buf : List Nat) (fill : List Nat) (ts i len : Nat) : List Nat :=
  if _h : 0 < ts ∧ i < len then
    clearLoop (writeBytes buf i (fill.take ts)) fill ts (i + ts) len
  else buf
termination_by len - i
decreasing_by omega

/-- Embeds `vector_clear(vector, data)`: overwrites every element slot in the
full capacity with the fill element and resets the cursor to 0. -/
def vector_clear (v : vector) (fill : List Nat) : Bool × vector :=
  if addr_of_data_eq_null v || decide (v.length ≤ 0) then (false, v)
  else (true, { v with
    data := v.data.map fun b => clearLoop b fill v.typeSize 0 v.length
    iterator := 0 })

/-- Embeds `vector_insert(vector, data, index)`.  Faithful points: the growth
call `vector_realloc(vector, vector->length << 1)` passes the BYTE capacity
doubled where `vector_realloc` expects an ELEMENT count, and its result is
discarded; the subsequent allocation check is the constant-false
`&vector->data == NULL`; the bound check is `byteIndex > iterator` on the
pre-growth cursor. -/
def vector_insert (allocOk : Bool) (v : vector) (data : List Nat) (index : Nat) :
    Bool × vector :=
  let byteIndex := mod64 (index * v.typeSize)
  let v1 := if v.iterator = v.length
    then (vector_realloc allocOk v (mod64 (v.length <<< 1))).2 else v
  if addr_of_data_eq_null v1 || decide (byteIndex < 0) || decide (byteIndex > v1.iterator)
  then (false, v1)
  else
    let shifted := bufMemmove v1.data (mod64 (byteIndex + v1.typeSize)) byteIndex
      (sub64 v1.iterator byteIndex)
    (true, { v1 with
      data := bufWrite shifted byteIndex (data.take v1.typeSize)
      iterator := mod64 (v1.iterator + v1.typeSize) })

/-- Embeds `vector_replace(vector, data, index)`: overwrites one element at a
strictly in-range index; no shift, no cursor change. -/
def vector_replace (v : vector) (data : List Nat) (index : Nat) : Bool × vector :=
  let byteIndex := mod64 (index * v.typeSize)
  if addr_of_data_eq_null v || decide (byteIndex < 0) || decide (byteIndex ≥ v.iterator)
  then (false, v)
  else (true, { v with data := bufWrite v.data byteIndex (data.take v.typeSize) })

/-- Embeds `vector_replace_unsafe(vector, data, index, byteCount)`: same bound
check as `vector_replace` but copies `byteCount` bytes. -/
def vector_replace_unsafe (v : vector) (data : List Nat) (index byteCount : Nat) :
    Bool × vector :=
  let byteIndex := mod64 (index * v.typeSize)
  if addr_of_data_eq_null v || decide (byteIndex < 0) || decide (byteIndex ≥ v.iterator)
  then (false, v)
  else (true, { v with data := bufWrite v.data byteIndex (data.take byteCount) })

/-- Embeds `vector_remove(vector, index)`: a REAL `vector->data == NULL` check
here; bound check `byteIndex > iterator`; decrements the cursor by one element
floored at zero, then shifts the tail left by one element.  The `memmove`
byte count `iterator - byteIndex` uses the already-decremented cursor and
wraps in `size_t` when `byteIndex` exceeds it. -/
def vector_remove (v : vector) (index : Nat) : Bool × vector :=
  let byteIndex := mod64 (index * v.typeSize)
  if v.data.isNone || decide (byteIndex < 0) || decide (byteIndex > v.iterator)
  then (false, v)
  else
    let it := sub64 v.iterator (if v.iterator > 0 then v.typeSize else 0)
    (true, { v with
      iterator := it
      data := bufMemmove v.data byteIndex (mod64 (byteIndex + v.typeSize))
        (sub64 it byteIndex) })

/-- Embeds `vector_get(vector, index)`: the same constant-false allocation
check and the `byteIndex > iterator` bound check; on success C returns the
pointer `data + byteIndex`, modelled as the byte offset into the buffer. -/
def vector_get (v : vector) (index : Nat) : Option Nat :=
  let byteIndex := mod64 (index * v.typeSize)
  if addr_of_data_eq_null v || decide (byteIndex < 0) || decide (byteIndex > v.iterator)
  then none
  else some byteIndex

/-- Embeds `vector_makestr(vector, first, last, outLen)`: computes
`VECTOR_MIN(0, VECTOR_MAX(last - first, last))` in `size_t`, reports it
through `outLen` when that pointer is non-null (`outLenReq = true`), then
`calloc`s `length + 1` bytes and `memmove`s `length` bytes from the START of
the vector's buffer.  Returns (reported length, new string block). -/
def vector_makestr (v : vector) (first last : Nat) (outLenReq : Bool) :
    Option Nat × List Nat :=
  let len := VECTOR_MIN 0 (VECTOR_MAX (sub64 last first) last)
  let string := writeBytes (List.replicate (len + 1) 0) 0
    (readBytes (v.data.getD []) 0 len)
  (if outLenReq then some len else none, string)

/-- Embeds `vector_cpystr(str)`: length-preserving copy of a byte string
(the terminating NUL comes from the zeroed `calloc` block). -/
def vector_cpystr (str : List Nat) : List Nat :=
  writeBytes (List.replicate (str.length + 1) 0) 0 str

/-- One mutating or querying call of the container API, for stating invariant
preservation over arbitrary operation sequences. -/
inductive Op where
  | insert (allocOk : Bool) (data : List Nat) (index : Nat)
  | replace (data : List Nat) (index : Nat)
  | replaceBytes (data : List Nat) (index byteCount : Nat)
  | remove (index : Nat)
  | realloc (allocOk : Bool) (lengthElems : Nat)
  | move (iterator : Nat)
  | clear (fill : List Nat)
  | free

/-- Dispatches one `Op` to the corresponding source function. -/
def vstep (op : Op) (v : vector) : Bool × vector :=
  match op with
  | .insert ok d i => vector_insert ok v d i
  | .replace d i => vector_replace v d i
  | .replaceBytes d i n => vector_replace_unsafe v d i n
  | .remove i => vector_remove v i
  | .realloc ok n => vector_realloc ok v n
  | .move i => vector_move v i
  | .clear f => vector_clear v f
  | .free => vector_free v

/-- Well-formed container states: positive element size dividing both byte
counts, cursor within capacity, capacity within `size_t`.  Every state the
constructors produce (with `typeSize > 0`) satisfies this. -/
def Wf (v : vector) : Prop :=
  0 < v.typeSize ∧ v.typeSize ∣ v.iterator ∧ v.typeSize ∣ v.length ∧
    v.iterator ≤ v.length ∧ v.length < SIZE_BOUND

instance (v : vector) : Decidable (Wf v) := by
  unfold Wf; infer_instance

/-- Side conditions under which an operation cannot break `count ≤ capacity`:
`insert` is applied to a nonzero-capacity container with its growth
allocation succeeding and the doubled byte size within `size_t`;
`reallocate` is not asked to shrink below the live length and its byte size
does not overflow; `move`'s byte position does not overflow. -/
def SafeOp (v : vector) : Op → Prop
  | .insert ok _ _ =>
      ok = true ∧ 0 < v.length ∧ 2 * v.length * v.typeSize < SIZE_BOUND
  | .realloc _ n => v.iterator ≤ n * v.typeSize ∧ n * v.typeSize < SIZE_BOUND
  | .move i => i * v.typeSize < SIZE_BOUND
  | _ => True

instance (v : vector) (op : Op) : Decidable (SafeOp v op) := by
  unfold SafeOp; cases op <;> infer_instance

/-! ## Arithmetic and buffer lemmas -/

theorem mod64_eq_of_lt {a : Nat} (h : a < SIZE_BOUND) : mod64 a = a :=
  Nat.mod_eq_of_lt h

theorem sub64_eq_sub {a b : Nat} (hb : b ≤ a) (ha : a < SIZE_BOUND) :
    sub64 a b = a - b := by
  unfold sub64
  rw [Nat.mod_eq_of_lt (lt_of_le_of_lt hb ha)]
  have h1 : a + SIZE_BOUND - b = (a - b) + SIZE_BOUND := by omega
  rw [h1, Nat.add_mod_right]
  exact Nat.mod_eq_of_lt (by omega)

theorem writeBytes_length (buf : List Nat) (off : Nat) (src : List Nat) :
    (writeBytes buf off src).length = buf.length := by
  simp only [writeBytes, List.length_append, List.length_take, List.length_drop]
  omega

theorem readBytes_writeBytes (buf src : List Nat) (off : Nat)
    (h : off + src.length ≤ buf.length) :
    readBytes (writeBytes buf off src) off src.length = src := by
  unfold readBytes writeBytes
  have h1 : (buf.take off).length = off := by
    rw [List.length_take]; omega
  have h2 : src.take (buf.length - off) = src :=
    List.take_of_length_le (by omega)
  rw [h2, List.append_assoc, List.drop_left' h1, List.take_left]

/-! ## Claim theorems -/

/-- C6: the claim says `is_allocated()` returns true iff the buffer pointer is
non-null, in particular false when never allocated and false after release.
The code computes `&vector->data != NULL` — the address of the struct field,
never NULL — so `vector_isalloc` returns true even on a NULL buffer: at the
never-allocated `vector_calloc(4, false)` and after `vector_free` of an
allocated container it still reports true. -/
theorem C6_isalloc_true_on_null_buffer :
    vector_isalloc (vector_calloc false 4 false) = true ∧
    (vector_calloc false 4 false).data = none ∧
    vector_isalloc (vector_free (vector_calloc true 4 true)).2 = true ∧
    (vector_free (vector_calloc true 4 true)).2.data = none := by
  decide

/-- C7: `vector_makestr` computes its copy length as
`VECTOR_MIN(0, VECTOR_MAX(last - first, last))` over `size_t`, stores it
through `outLen` exactly when that pointer is non-null, and copies that many
bytes from the start of the buffer into a fresh null-terminated string.  In
unsigned arithmetic the min-with-zero makes the length 0 for all arguments,
so the returned string is always the bare terminator. -/
theorem C7_makestr_length_formula (v : vector) (first last : Nat) :
    (vector_makestr v first last true).1
        = some (VECTOR_MIN 0 (VECTOR_MAX (sub64 last first) last)) ∧
    (vector_makestr v first last false).1 = none ∧
    VECTOR_MIN 0 (VECTOR_MAX (sub64 last first) last) = 0 ∧
    (vector_makestr v first last true).2 = [0] ∧
    (vector_makestr v first last false).2 = [0] := by
  have h0 : VECTOR_MIN 0 (VECTOR_MAX (sub64 last first) last) = 0 := by
    unfold VECTOR_MIN
    split <;> omega
  refine ⟨?_, ?_, h0, ?_, ?_⟩ <;>
    simp [vector_makestr, h0, readBytes, writeBytes]

/-- C8: `vector_realloc(v, n)` on allocator success sets the capacity byte
count to `n * typeSize`, leaves the cursor (live byte length) untouched —
also when the new capacity is below it — and returns true; on allocator
failure it returns false with the whole struct unchanged. -/
theorem C8_realloc_contract (v : vector) (n : Nat)
    (h : n * v.typeSize < SIZE_BOUND) :
    (vector_realloc true v n).1 = true ∧
    (vector_realloc true v n).2.length = n * v.typeSize ∧
    (vector_realloc true v n).2.iterator = v.iterator ∧
    (vector_realloc true v n).2.typeSize = v.typeSize ∧
    vector_realloc false v n = (false, v) := by
  unfold vector_realloc
  simp [mod64_eq_of_lt h]

/-- Witness for C8: element size 2, live length 4 bytes, shrunk to capacity
1 element (2 bytes) below the live length; and the failing-allocator case. -/
theorem C8_realloc_contract_witness :
    (vector_realloc true ⟨2, 8, 4, some [1, 2, 3, 4, 0, 0, 0, 0]⟩ 1).1 = true ∧
    (vector_realloc true ⟨2, 8, 4, some [1, 2, 3, 4, 0, 0, 0, 0]⟩ 1).2.length = 1 * 2 ∧
    (vector_realloc true ⟨2, 8, 4, some [1, 2, 3, 4, 0, 0, 0, 0]⟩ 1).2.iterator = 4 ∧
    (vector_realloc true ⟨2, 8, 4, some [1, 2, 3, 4, 0, 0, 0, 0]⟩ 1).2.typeSize = 2 ∧
    vector_realloc false ⟨2, 8, 4, some [1, 2, 3, 4, 0, 0, 0, 0]⟩ 1
      = (false, ⟨2, 8, 4, some [1, 2, 3, 4, 0, 0, 0, 0]⟩) :=
  C8_realloc_contract ⟨2, 8, 4, some [1, 2, 3, 4, 0, 0, 0, 0]⟩ 1 (by decide)

/-- C10: releasing an allocated container nulls only the buffer pointer and
returns true; `typeSize`, capacity bytes and cursor are untouched, so
`vector_bytesize`, `vector_maxsize` and `vector_count` still report their
pre-release values; on an already-unallocated container `vector_free`
returns false and changes nothing. -/
theorem C10_free_frame (v : vector) :
    (v.data.isSome = true →
      vector_free v = (true, { v with data := none }) ∧
      vector_bytesize (vector_free v).2 = vector_bytesize v ∧
      vector_maxsize (vector_free v).2 = vector_maxsize v ∧
      vector_count (vector_free v).2 = vector_count v ∧
      vector_typesize (vector_free v).2 = vector_typesize v) ∧
    (v.data = none → vector_free v = (false, v)) := by
  constructor
  · intro h
    have hn : v.data.isNone = false := by
      cases hd : v.data <;> simp_all
    simp [vector_free, hn, vector_bytesize, vector_maxsize, vector_count,
      vector_typesize]
  · intro h
    simp [vector_free, h]

/-- Witness for C10 at a concrete allocated container (and its released
counterpart for the unallocated branch). -/
theorem C10_free_frame_witness :
    vector_free ⟨4, 16, 8, some (List.replicate 16 0)⟩ = (true, ⟨4, 16, 8, none⟩) ∧
    vector_free ⟨4, 16, 8, none⟩ = (false, ⟨4, 16, 8, none⟩) :=
  ⟨((C10_free_frame ⟨4, 16, 8, some (List.replicate 16 0)⟩).1 (by decide)).1,
    (C10_free_frame ⟨4, 16, 8, none⟩).2 rfl⟩

/-- C2: the claim (like the header comment, "will realloc and resize to
[length * 2]") says inserting into a full container doubles `capacity()`.
The code passes the doubled BYTE capacity `vector->length << 1` to
`vector_realloc`, whose parameter is an ELEMENT count that it multiplies by
`typeSize` again: a full 1-element container of 4-byte elements grows to
capacity 8 elements (factor `2 * typeSize`), not 2.  The insert itself still
succeeds and stores the element. -/
theorem C2_growth_multiplies_by_twice_typesize :
    vector_maxsize (vector_calloc2 true 4 1 true) = 1 ∧
    vector_count (vector_insert true (vector_calloc2 true 4 1 true)
      [1, 2, 3, 4] 0).2 = 1 ∧
    (vector_insert true (vector_insert true (vector_calloc2 true 4 1 true)
      [1, 2, 3, 4] 0).2 [5, 6, 7, 8] 1).1 = true ∧
    vector_maxsize (vector_insert true (vector_insert true
      (vector_calloc2 true 4 1 true) [1, 2, 3, 4] 0).2 [5, 6, 7, 8] 1).2 = 8 ∧
    ¬ vector_maxsize (vector_insert true (vector_insert true
      (vector_calloc2 true 4 1 true) [1, 2, 3, 4] 0).2 [5, 6, 7, 8] 1).2 = 2 ∧
    readBytes ((vector_insert true (vector_insert true
      (vector_calloc2 true 4 1 true) [1, 2, 3, 4] 0).2
      [5, 6, 7, 8] 1).2.data.getD []) 4 4 = [5, 6, 7, 8] := by
  decide

/-- C3: the claim (like the header comment, "all operations will fail if
memory is not allocated") says every insert on a `reserve = false` container
fails and leaves `count() = 0`.  The code's allocation check is the
constant-false `&vector->data == NULL`, and the result of the degenerate
growth call (`realloc` to zero bytes) is ignored, so `insert(data, 0)` on the
unallocated container passes the bound check `0 ≤ iterator`, returns true and
advances the cursor to one element — whether the allocator call fails or
returns a zero-byte block. -/
theorem C3_insert_succeeds_on_unallocated :
    (vector_calloc false 4 false).data = none ∧
    vector_count (vector_calloc false 4 false) = 0 ∧
    vector_maxsize (vector_calloc false 4 false) = 0 ∧
    (vector_insert false (vector_calloc false 4 false) [9, 9, 9, 9] 0).1 = true ∧
    (vector_insert true (vector_calloc false 4 false) [9, 9, 9, 9] 0).1 = true ∧
    vector_count (vector_insert false (vector_calloc false 4 false)
      [9, 9, 9, 9] 0).2 = 1 ∧
    vector_count (vector_insert true (vector_calloc false 4 false)
      [9, 9, 9, 9] 0).2 = 1 ∧
    vector_maxsize (vector_insert false (vector_calloc false 4 false)
      [9, 9, 9, 9] 0).2 = 0 := by
  decide

/-- C4 counterexample: from the well-formed state (element size 1, capacity
2 bytes, live length 2 bytes) the successful call `vector_realloc(v, 1)`
shrinks the capacity below the live length and returns true, leaving
`count() = 2 > 1 = capacity()` — the claimed invariant fails after a
successful call. -/
theorem C4_shrink_realloc_breaks_invariant :
    Wf ⟨1, 2, 2, some [7, 7]⟩ ∧
    (vector_realloc true ⟨1, 2, 2, some [7, 7]⟩ 1).1 = true ∧
    ¬ vector_count (vector_realloc true ⟨1, 2, 2, some [7, 7]⟩ 1).2
        ≤ vector_maxsize (vector_realloc true ⟨1, 2, 2, some [7, 7]⟩ 1).2 := by
  decide

/-- C1: insert/get round trip.  For an allocated container whose block
physically matches the capacity, an element-sized `data` and a valid index
(`index * typeSize ≤ iterator`) with room for the element
(`iterator + typeSize ≤ length`), `vector_insert` succeeds and a subsequent
`vector_get` at the same index locates exactly the `typeSize` bytes of
`data`. -/
theorem C1_insert_get_roundtrip (allocOk : Bool) (v : vector)
    (buf data : List Nat) (index : Nat)
    (hbuf : v.data = some buf) (hphys : buf.length = v.length)
    (hts : 0 < v.typeSize) (hdata : data.length = v.typeSize)
    (hidx : index * v.typeSize ≤ v.iterator)
    (hroom : v.iterator + v.typeSize ≤ v.length)
    (hlen : v.length < SIZE_BOUND) :
    (vector_insert allocOk v data index).1 = true ∧
    vector_get (vector_insert allocOk v data index).2 index
      = some (index * v.typeSize) ∧
    readBytes ((vector_insert allocOk v data index).2.data.getD [])
      (index * v.typeSize) v.typeSize = data := by
  have hne : ¬ v.iterator = v.length := by omega
  have hm1 : mod64 (index * v.typeSize) = index * v.typeSize :=
    mod64_eq_of_lt (by omega)
  have hm2 : mod64 (v.iterator + v.typeSize) = v.iterator + v.typeSize :=
    mod64_eq_of_lt (by omega)
  have hc1 : decide (index * v.typeSize > v.iterator) = false :=
    decide_eq_false (by omega)
  have hc2 : decide (index * v.typeSize > v.iterator + v.typeSize) = false :=
    decide_eq_false (by omega)
  have htake : data.take v.typeSize = data := by
    rw [← hdata]
    exact List.take_length data
  simp only [vector_insert, vector_get, if_neg hne, addr_of_data_eq_null,
    hm1, hm2, hc1, hc2, Bool.false_or, Nat.not_lt_zero, decide_False,
    Bool.or_false, if_false, Bool.false_eq_true, hbuf, bufMemmove,
    bufWrite, Option.map_some, htake]
  refine ⟨trivial, trivial, ?_⟩
  have hgoal := readBytes_writeBytes
    (writeBytes buf (mod64 (index * v.typeSize + v.typeSize))
      (readBytes buf (index * v.typeSize)
        (sub64 v.iterator (index * v.typeSize))))
    data (index * v.typeSize)
    (by rw [writeBytes_length, hphys]; omega)
  rw [hdata] at hgoal
  simpa using hgoal

/-- Witness for C1: 2-byte elements, capacity 6 bytes, two live elements;
insert `[7, 8]` at index 1 and read it back through `vector_get`. -/
theorem C1_insert_get_roundtrip_witness :
    (vector_insert true ⟨2, 6, 4, some [10, 20, 30, 40, 0, 0]⟩ [7, 8] 1).1 = true ∧
    vector_get (vector_insert true ⟨2, 6, 4, some [10, 20, 30, 40, 0, 0]⟩
      [7, 8] 1).2 1 = some (1 * 2) ∧
    readBytes ((vector_insert true ⟨2, 6, 4, some [10, 20, 30, 40, 0, 0]⟩
      [7, 8] 1).2.data.getD []) (1 * 2) 2 = [7, 8] :=
  C1_insert_get_roundtrip true ⟨2, 6, 4, some [10, 20, 30, 40, 0, 0]⟩
    [10, 20, 30, 40, 0, 0] [7, 8] 1 rfl (by decide) (by decide) (by decide)
    (by decide) (by decide) (by decide)

/-- C5: on an allocated container with `index * typeSize ≤ iterator` (the
boundary `index = count()` included), `vector_remove` returns true; when the
container is non-empty the element count drops by exactly one, and at count
zero the cursor stays at zero. -/
theorem C5_remove_contract (v : vector) (buf : List Nat) (index : Nat)
    (hbuf : v.data = some buf)
    (hts : 0 < v.typeSize) (hdvd : v.typeSize ∣ v.iterator)
    (hit : v.iterator < SIZE_BOUND)
    (hidx : index * v.typeSize ≤ v.iterator) :
    (vector_remove v index).1 = true ∧
    (v.iterator = 0 → vector_count (vector_remove v index).2 = 0) ∧
    (0 < v.iterator →
      vector_count (vector_remove v index).2 + 1 = vector_count v) := by
  have hm1 : mod64 (index * v.typeSize) = index * v.typeSize :=
    mod64_eq_of_lt (by omega)
  have hc1 : decide (index * v.typeSize > v.iterator) = false :=
    decide_eq_false (by omega)
  simp only [vector_remove, hbuf, hm1, hc1, Option.isSome_some,
    Option.isNone_some, Nat.not_lt_zero, decide_False, Bool.false_or,
    Bool.or_false, if_false, Bool.false_eq_true, vector_count]
  refine ⟨trivial, ?_, ?_⟩
  · intro h0
    rw [h0, if_neg (lt_irrefl 0),
      sub64_eq_sub (le_refl 0) (by norm_num [SIZE_BOUND])]
    simp
  · intro hpos
    have hge : v.typeSize ≤ v.iterator := Nat.le_of_dvd hpos hdvd
    rw [if_pos hpos, sub64_eq_sub hge hit]
    obtain ⟨k, hk⟩ := hdvd
    rw [hk]
    have hk1 : 1 ≤ k := by
      by_contra h
      have hkz : k = 0 := by omega
      rw [hkz, Nat.mul_zero] at hk
      omega
    have h2 : v.typeSize * (k - 1) + v.typeSize * 1 = v.typeSize * k := by
      rw [← Nat.mul_add]
      congr 1
      omega
    have h1 : v.typeSize * k - v.typeSize = v.typeSize * (k - 1) := by omega
    rw [h1, Nat.mul_div_cancel_left _ hts, Nat.mul_div_cancel_left _ hts]
    omega

/-- Witness for C5: removing at the boundary index `count() = 2` of a
2-byte-element container with two live elements. -/
theorem C5_remove_contract_witness :
    (vector_remove ⟨2, 6, 4, some [10, 20, 30, 40, 0, 0]⟩ 2).1 = true ∧
    ((4 : Nat) = 0 →
      vector_count (vector_remove ⟨2, 6, 4, some [10, 20, 30, 40, 0, 0]⟩ 2).2 = 0) ∧
    ((0 : Nat) < 4 →
      vector_count (vector_remove ⟨2, 6, 4, some [10, 20, 30, 40, 0, 0]⟩ 2).2 + 1
        = vector_count ⟨2, 6, 4, some [10, 20, 30, 40, 0, 0]⟩) :=
  C5_remove_contract ⟨2, 6, 4, some [10, 20, 30, 40, 0, 0]⟩
    [10, 20, 30, 40, 0, 0] 2 rfl (by decide) (by decide) (by decide) (by decide)

/-- C9: on a full container (`iterator = length > 0`), when the internal
growth reallocation fails (`allocOk = false`), an append
(`index * typeSize = iterator`) still passes the bound check:
`vector_insert` discards the failed growth result, returns true, and
advances the cursor one element past the unchanged capacity, so the
allocation failure is never reported. -/
theorem C9_failed_growth_append_overflows (v : vector) (data : List Nat)
    (index : Nat)
    (hfull : v.iterator = v.length) (_hpos : 0 < v.length)
    (hts : 0 < v.typeSize)
    (happend : index * v.typeSize = v.iterator)
    (hbound : v.iterator + v.typeSize < SIZE_BOUND) :
    (vector_insert false v data index).1 = true ∧
    (vector_insert false v data index).2.length = v.length ∧
    (vector_insert false v data index).2.iterator = v.iterator + v.typeSize ∧
    v.length < (vector_insert false v data index).2.iterator := by
  have hm1 : mod64 (index * v.typeSize) = index * v.typeSize :=
    mod64_eq_of_lt (by omega)
  have hm2 : mod64 (v.iterator + v.typeSize) = v.iterator + v.typeSize :=
    mod64_eq_of_lt (by omega)
  have hc1 : decide (index * v.typeSize > v.iterator) = false :=
    decide_eq_false (by omega)
  simp only [vector_insert, vector_realloc, if_pos hfull, addr_of_data_eq_null,
    hm1, hm2, hc1, Nat.not_lt_zero, decide_False, Bool.false_or, Bool.or_false,
    Bool.false_eq_true, if_false]
  refine ⟨trivial, trivial, trivial, ?_⟩
  omega

/-- Witness for C9: full container of 4-byte elements (capacity 1 element),
append at index 1 = count() with the allocator failing. -/
theorem C9_failed_growth_append_overflows_witness :
    (vector_insert false ⟨4, 4, 4, some [1, 2, 3, 4]⟩ [5, 6, 7, 8] 1).1 = true ∧
    (vector_insert false ⟨4, 4, 4, some [1, 2, 3, 4]⟩ [5, 6, 7, 8] 1).2.length = 4 ∧
    (vector_insert false ⟨4, 4, 4, some [1, 2, 3, 4]⟩ [5, 6, 7, 8] 1).2.iterator
      = 4 + 4 ∧
    (4 : Nat) < (vector_insert false ⟨4, 4, 4, some [1, 2, 3, 4]⟩
      [5, 6, 7, 8] 1).2.iterator :=
  C9_failed_growth_append_overflows ⟨4, 4, 4, some [1, 2, 3, 4]⟩ [5, 6, 7, 8] 1
    rfl (by decide) (by decide) (by decide) (by decide)

/-- If an element size divides two byte counts in strict order, there is room
for one more element. -/
theorem add_ts_le_of_dvd_lt {ts a b : Nat} (h1 : ts ∣ a) (h2 : ts ∣ b)
    (h : a < b) : a + ts ≤ b := by
  have hd : ts ∣ b - a := Nat.dvd_sub' h2 h1
  have hle : ts ≤ b - a := Nat.le_of_dvd (by omega) hd
  omega

/-- Well-formedness gives the element-level capacity invariant. -/
theorem wf_count_le_maxsize (v : vector) (h : Wf v) :
    vector_count v ≤ vector_maxsize v :=
  Nat.div_le_div_right h.2.2.2.1

/-- C4 (amended): from any well-formed state, every operation call that
returns success preserves well-formedness — in particular
`count() ≤ capacity()` — under the `SafeOp` side conditions: growth/resize
allocations succeed, `reallocate` is not asked for a capacity below the live
length, `insert` is not applied to a zero-capacity container, and the byte
size computations stay within `size_t`.  Without those side conditions the
claim is false (see the shrinking-`vector_realloc` counterexample). -/
theorem C4_safe_success_preserves_invariant (op : Op) (v : vector)
    (hwf : Wf v) (hsafe : SafeOp v op) (hs : (vstep op v).1 = true) :
    Wf (vstep op v).2 ∧
      vector_count (vstep op v).2 ≤ vector_maxsize (vstep op v).2 := by
  suffices hW : Wf (vstep op v).2 from ⟨hW, wf_count_le_maxsize _ hW⟩
  obtain ⟨hts, hdvdit, hdvdlen, hle, hlt⟩ := hwf
  cases op with
  | insert ok d i =>
    obtain ⟨hok, hposlen, hov⟩ := hsafe
    subst hok
    simp only [vstep] at hs ⊢
    by_cases hfull : v.iterator = v.length
    · have hmul : 2 * v.length * v.typeSize
          = v.length * v.typeSize + v.length * v.typeSize := by ring
      have hLts : v.length ≤ v.length * v.typeSize :=
        Nat.le_mul_of_pos_right _ hts
      have htsL : v.typeSize ≤ v.length * v.typeSize :=
        Nat.le_mul_of_pos_left _ hposlen
      have hshift : mod64 (v.length <<< 1) = v.length * 2 := by
        rw [Nat.shiftLeft_eq, pow_one]
        exact mod64_eq_of_lt (by omega)
      have hassoc : v.length * 2 * v.typeSize = 2 * v.length * v.typeSize := by
        ring
      have hns : mod64 (v.length * 2 * v.typeSize)
          = v.length * 2 * v.typeSize := mod64_eq_of_lt (by omega)
      have hitts : v.iterator + v.typeSize ≤ v.length * 2 * v.typeSize := by
        omega
      have hmit : mod64 (v.iterator + v.typeSize) = v.iterator + v.typeSize :=
        mod64_eq_of_lt (by omega)
      simp only [vector_insert, vector_realloc, if_pos hfull, hshift, hns,
        addr_of_data_eq_null, Bool.false_or, Nat.not_lt_zero, decide_False,
        hmit, if_true, ite_true, eq_self_iff_true] at hs ⊢
      split at hs
      · exact absurd hs (by simp)
      · next hc =>
        rw [if_neg hc]
        refine ⟨hts, Nat.dvd_add hdvdit dvd_rfl, dvd_mul_left _ _, hitts, ?_⟩
        dsimp only
        omega
    · have hltit : v.iterator < v.length := lt_of_le_of_ne hle hfull
      have haddle : v.iterator + v.typeSize ≤ v.length :=
        add_ts_le_of_dvd_lt hdvdit hdvdlen hltit
      have hmit : mod64 (v.iterator + v.typeSize) = v.iterator + v.typeSize :=
        mod64_eq_of_lt (by omega)
      simp only [vector_insert, if_neg hfull, addr_of_data_eq_null,
        Bool.false_or, Nat.not_lt_zero, decide_False, hmit] at hs ⊢
      split at hs
      · exact absurd hs (by simp)
      · next hc =>
        rw [if_neg hc]
        exact ⟨hts, Nat.dvd_add hdvdit dvd_rfl, hdvdlen, haddle, hlt⟩
  | replace d i =>
    simp only [vstep, vector_replace, addr_of_data_eq_null, Bool.false_or,
      Nat.not_lt_zero, decide_False] at hs ⊢
    split at hs
    · exact absurd hs (by simp)
    · next hc =>
      rw [if_neg hc]
      exact ⟨hts, hdvdit, hdvdlen, hle, hlt⟩
  | replaceBytes d i n =>
    simp only [vstep, vector_replace_unsafe, addr_of_data_eq_null,
      Bool.false_or, Nat.not_lt_zero, decide_False] at hs ⊢
    split at hs
    · exact absurd hs (by simp)
    · next hc =>
      rw [if_neg hc]
      exact ⟨hts, hdvdit, hdvdlen, hle, hlt⟩
  | remove i =>
    simp only [vstep, vector_remove, Nat.not_lt_zero, decide_False,
      Bool.false_or] at hs ⊢
    split at hs
    · exact absurd hs (by simp)
    · next hc =>
      rw [if_neg hc]
      by_cases hpos : v.iterator > 0
      · have hge : v.typeSize ≤ v.iterator := Nat.le_of_dvd hpos hdvdit
        rw [if_pos hpos, sub64_eq_sub hge (by omega)]
        exact ⟨hts, Nat.dvd_sub' hdvdit dvd_rfl, hdvdlen,
          by dsimp only; omega, hlt⟩
      · have h0 : v.iterator = 0 := by omega
        rw [if_neg hpos, h0,
          sub64_eq_sub (le_refl 0) (by norm_num [SIZE_BOUND])]
        exact ⟨hts, by simp, hdvdlen, by dsimp only; omega, hlt⟩
  | realloc ok n =>
    obtain ⟨hshr, hov⟩ := hsafe
    simp only [vstep] at hs ⊢
    cases ok with
    | false => simp [vector_realloc] at hs
    | true =>
      have hm : mod64 (n * v.typeSize) = n * v.typeSize := mod64_eq_of_lt hov
      simp only [vector_realloc, hm, if_true, ite_true,
        eq_self_iff_true] at hs ⊢
      exact ⟨hts, hdvdit, dvd_mul_left _ _, hshr, hov⟩
  | move i =>
    have hov := hsafe
    have hm : mod64 (i * v.typeSize) = i * v.typeSize :=
      mod64_eq_of_lt hov
    simp only [vstep, vector_move, addr_of_data_eq_null, Bool.false_or,
      Nat.not_lt_zero, decide_False, hm] at hs ⊢
    split at hs
    · exact absurd hs (by simp)
    · next hc =>
      rw [if_neg hc]
      have hble : i * v.typeSize ≤ v.length := by
        simp only [decide_eq_true_eq] at hc
        omega
      exact ⟨hts, dvd_mul_left _ _, hdvdlen, hble, hlt⟩
  | clear f =>
    simp only [vstep, vector_clear, addr_of_data_eq_null,
      Bool.false_or] at hs ⊢
    split at hs
    · exact absurd hs (by simp)
    · next hc =>
      rw [if_neg hc]
      exact ⟨hts, dvd_zero _, hdvdlen, Nat.zero_le _, hlt⟩
  | free =>
    simp only [vstep, vector_free] at hs ⊢
    split at hs
    · exact absurd hs (by simp)
    · next hc =>
      rw [if_neg hc]
      exact ⟨hts, hdvdit, hdvdlen, hle, hlt⟩

/-- Witness for C4: a successful in-bounds insert (with room, allocator
succeeding) from a well-formed 1-byte-element container with capacity 2 and
one live element. -/
theorem C4_safe_success_preserves_invariant_witness :
    Wf (vstep (Op.insert true [7] 1) ⟨1, 2, 1, some [5, 0]⟩).2 ∧
      vector_count (vstep (Op.insert true [7] 1) ⟨1, 2, 1, some [5, 0]⟩).2
        ≤ vector_maxsize (vstep (Op.insert true [7] 1) ⟨1, 2, 1, some [5, 0]⟩).2 :=
  C4_safe_success_preserves_invariant (Op.insert true [7] 1)
    ⟨1, 2, 1, some [5, 0]⟩ (by decide) (by decide) (by decide)
